import Mathlib

/-!
# KarmaSpark — verification of the core spec against the source

Shallow embedding of the KarmaSpark bot core (a ReAct-style planning agent
over a Mistral chat/embedding backend with a SQLite memory store) and proofs
settling the spec claims about it.

Embedded components and their sources:
* `src/agent.rs` — `AgentAction::parse_from_llm_response`,
  `Agent::build_message_history`, `Agent::plan_and_execute` (the planning loop).
* `src/llm.rs` — retry/backoff loop shared by `MistralClient::chat` and
  `MistralEmbedding::embed_text`; `MistralEmbedding::similarity`.
* `src/memory.rs` — `MemoryStore::store_memory` / `get_memory` over the
  `memories` table with its `UNIQUE(chat_id, user_id, timestamp)` constraint;
  `cosine_similarity`.
* `src/commands/memory.rs` — `MemoryCmd::recall_memory` fallback chain.

Modelling conventions:
* Rust `String` is Lean `String`; byte length is modelled as char length.
* `DateTime<Utc>` timestamps are modelled as `Nat` instants (creation order);
  RFC-3339 serialisation round-trips, so storage keeps the `Nat` directly.
* `f32` values are modelled by their IEEE-754 bit patterns (`Nat < 2^32`)
  where the code moves raw bytes, and by `ℚ` plus an abstract square-root
  function where the code does float arithmetic.
* `serde_json::from_str` (an external crate) is a parameter
  `jp : String → Option JsonVal` of the parser; `serde_json::Value` is the
  inductive `JsonVal`.
* Network calls (`llm.chat`, embeddings, action execution) are oracles
  `Nat → …` indexed by the number of calls issued so far.
-/

namespace KarmaSpark

/-! ## String utilities (Rust `str` methods used by the source) -/

/-- `needle.isPrefixOf`-based substring search on char lists:
`containsSub s pat = true` iff `pat` occurs contiguously in `s`.
Models Rust `str::contains` for a nonempty pattern. -/
def containsSub : List Char → List Char → Bool
  | s, pat =>
    pat.isPrefixOf s ||
      match s with
      | [] => false
      | _ :: t => containsSub t pat

/-- Rust `str::contains` on strings. -/
def strContains (s pat : String) : Bool :=
  containsSub s.toList pat.toList

/-- Rust `str::trim`: drop leading and trailing whitespace. -/
def trimChars (s : List Char) : List Char :=
  ((s.dropWhile Char.isWhitespace).reverse.dropWhile Char.isWhitespace).reverse

/-- Rust `str::trim` on strings. -/
def rustTrim (s : String) : String :=
  ⟨trimChars s.toList⟩

/-- Suffix of `s` after the first occurrence of `pat`
(Rust `str::find` + slicing past the marker); `none` when absent. -/
def afterSub : List Char → List Char → Option (List Char)
  | s, pat =>
    if pat.isPrefixOf s then some (s.drop pat.length)
    else
      match s with
      | [] => none
      | _ :: t => afterSub t pat

/-- Prefix of `s` before the first occurrence of `pat`; the whole of `s`
when `pat` is absent (Rust `find(...).unwrap_or(len)` + slicing). -/
def beforeSub : List Char → List Char → List Char
  | s, pat =>
    if pat.isPrefixOf s then []
    else
      match s with
      | [] => []
      | c :: t => c :: beforeSub t pat

/-! ## JSON values (`serde_json::Value`, restricted to what the agent reads) -/

/-- Model of `serde_json::Value`: an object with named fields, a string, or
any other JSON value (numbers, arrays, …, which the agent never reads
through `as_str`). -/
inductive JsonVal where
  | obj (fields : List (String × JsonVal))
  | str (s : String)
  | other

namespace JsonVal

/-- `serde_json::Value::get(key)` on an object; `None` on non-objects. -/
def get : JsonVal → String → Option JsonVal
  | obj fields, k => (fields.find? (fun f => f.1 == k)).map Prod.snd
  | _, _ => none

/-- `serde_json::Value::as_str`. -/
def asStr : JsonVal → Option String
  | str s => some s
  | _ => none

end JsonVal

/-! ## `AgentAction::parse_from_llm_response` (src/agent.rs:60-96)

The parser returns the `(action_type, parameters)` pair; the caller
(`AgentAction::new`) attaches the fresh id and timestamp, which the engine
model below assigns from its clock.  `jp` is the external
`serde_json::from_str`. -/

def parse_from_llm_response (jp : String → Option JsonVal) (response : String) :
    Option (String × JsonVal) :=
  if ¬ strContains response "ACTION:" then
    -- If the response is short and simple, treat it as a direct answer
    if response.length < 500 ∧ ¬ strContains response "PARAMETERS:" then
      some ("answer", .obj [("final_answer", .str (rustTrim response))])
    else none
  else
    -- `response.split("ACTION:")`: `action_parts.len() < 2` iff the marker
    -- does not occur, and `action_parts[1]` is the text between the first
    -- occurrence and the following occurrence (or the end).
    match afterSub response.toList "ACTION:".toList with
    | none => none
    | some after_marker =>
      let action_text := rustTrim ⟨beforeSub after_marker "ACTION:".toList⟩
      let action_name :=
        rustTrim ⟨action_text.toList.takeWhile (fun c => c ≠ '\n')⟩
      -- Extract parameters
      let parameters :=
        match afterSub response.toList "PARAMETERS:".toList with
        | none => JsonVal.obj []
        | some params_text =>
          let params_json :=
            rustTrim ⟨beforeSub params_text "\n\n".toList⟩
          match jp params_json with
          | some parsed => parsed
          | none => JsonVal.obj []
      some (action_name, parameters)

/-! ## Session data (src/agent.rs:25-127)

`Uuid` ids and `DateTime<Utc>` timestamps are both modelled by the single
creation instant `ts : Nat`, drawn from the engine's clock: distinct
creations get distinct, increasing instants. An `Observation` keeps its
action's `ts` as the `action_id` back-reference. -/

structure Thought where
  content : String
  ts : Nat
deriving DecidableEq, Repr

structure AgentAction where
  action_type : String
  parameters : JsonVal
  ts : Nat

structure Observation where
  content : String
  action_id : Nat
  ts : Nat
deriving DecidableEq, Repr

/-- `crate::llm::ChatMessage` (src/llm.rs:21-25). -/
structure ChatMessage where
  role : String
  content : String
deriving DecidableEq, Repr

mutual

/-- Model of `serde_json::to_string_pretty` used by `AgentAction`'s
`Display` impl; the agent never branches on this text, so only its shape
matters. -/
def jsonPretty : JsonVal → String
  | .obj fields => "\x7b" ++ jsonPrettyFields fields ++ "\x7d"
  | .str s => "\"" ++ s ++ "\""
  | .other => "<value>"

/-- Renders the comma-separated fields of a JSON object. -/
def jsonPrettyFields : List (String × JsonVal) → String
  | [] => ""
  | [(k, v)] => "\"" ++ k ++ "\": " ++ jsonPretty v
  | (k, v) :: rest =>
      "\"" ++ k ++ "\": " ++ jsonPretty v ++ ", " ++ jsonPrettyFields rest

end

/-- `impl fmt::Display for AgentAction` (src/agent.rs:99-108). -/
def displayAction (a : AgentAction) : String :=
  "Action: " ++ a.action_type ++ "\nParameters: " ++ jsonPretty a.parameters

/-- The three transcript entries of `Agent::build_message_history`
(src/agent.rs:439-458), tagged with 1-based index `i + 1`. -/
def thoughtMsg (i : Nat) (t : Thought) : ChatMessage :=
  ⟨"assistant", "Thought " ++ toString (i + 1) ++ ": " ++ t.content⟩

/-- Action entry of the transcript. -/
def actionMsg (i : Nat) (a : AgentAction) : ChatMessage :=
  ⟨"assistant", "Action " ++ toString (i + 1) ++ ": " ++ displayAction a⟩

/-- Observation entry of the transcript. -/
def obsMsg (i : Nat) (o : Observation) : ChatMessage :=
  ⟨"user", "Observation " ++ toString (i + 1) ++ ": " ++ o.content⟩

/-- Trailing prompts of `build_message_history` (src/agent.rs:462-466). -/
def firstStepPrompt : String := "What is your first step to solve this problem?"

/-- Prompt used once the transcript is nonempty. -/
def nextStepPrompt : String :=
  "What is your next step? You can either think more about the problem, take an action, or provide your final answer."

/-- Core of `Agent::build_message_history` (src/agent.rs:439-459): the source
iterates over `thoughts.iter().enumerate()` and, at thought index `i`, reads
`actions[i]` and (nested inside that check) `observations[i]`.  This
recursion consumes one head of `actions`/`observations` per thought, so at
the call on the tail the heads are exactly `actions[i]`/`observations[i]` of
the original lists; once `actions` is exhausted no further action or
observation is emitted, exactly as the `i < actions.len()` guard does. -/
def histCore (i : Nat) :
    List Thought → List AgentAction → List Observation → List ChatMessage
  | [], _, _ => []
  | t :: th, ac, ob =>
    thoughtMsg i t ::
      match ac with
      | [] => histCore (i + 1) th [] ob
      | a :: ac' =>
        actionMsg i a ::
          match ob with
          | [] => histCore (i + 1) th ac' []
          | o :: ob' => obsMsg i o :: histCore (i + 1) th ac' ob'

/-- `Agent::build_message_history` (src/agent.rs:430-474). -/
def build_message_history (th : List Thought) (ac : List AgentAction)
    (ob : List Observation) : List ChatMessage :=
  let messages := histCore 0 th ac ob
  messages ++
    [⟨"user", if messages.isEmpty then firstStepPrompt else nextStepPrompt⟩]

/-! ## `Agent::plan_and_execute` (src/agent.rs:164-372)

The LLM backend is an oracle `oracle : Nat → Except String String` giving
the outcome of the n-th `llm.chat` call of the run (argument: the number of
chat calls already issued, tracked in `calls`).  `jp` is
`serde_json::from_str`.  The pacing `sleep` calls do not affect state and
are dropped. -/

/-- ReAct planning stages (src/agent.rs:16-23). -/
inductive PlanningState where
  | Start
  | Thinking
  | Acting
  | Observing
  | Finished
deriving DecidableEq, Repr

/-- The mutable locals of the planning loop (src/agent.rs:200-207), plus the
model's creation clock `clock`, the chat-call counter `calls`, and the
instrumentation counter `thinkEntries` recording how many times the
`Thinking` arm has been entered. -/
structure EngineState where
  pstate : PlanningState
  thoughts : List Thought
  actions : List AgentAction
  observations : List Observation
  current_step : Nat
  final_answer : String
  consecutive_thinking_count : Nat
  clock : Nat
  calls : Nat
  thinkEntries : Nat

/-- Loop-local state right after initialisation (src/agent.rs:200-207). -/
def initState : EngineState :=
  ⟨.Start, [], [], [], 0, "", 0, 0, 0, 0⟩

/-- Initial synthetic thought (src/agent.rs:220-223). -/
def startThought (query : String) : String :=
  "I need to help answer the user's question: \"" ++ query ++
    "\". Let me think about this step by step."

/-- Fixed apology used when the tool-free fallback chat call fails
(src/agent.rs:252). -/
def apologyFallback : String :=
  "I'm not able to provide a complete answer at this time. Please try asking your question differently."

/-- Prefix of the consecutive-thinking fallback answer (src/agent.rs:240-243). -/
def fallbackPrefix (query : String) : String :=
  "I've thought about your question \"" ++ query ++ "\" and here's my answer:\n\n"

/-- The enumerated findings of the partial answer (src/agent.rs:386-388). -/
def findingLines : Nat → List Observation → String
  | _, [] => ""
  | i, o :: rest =>
    "Finding " ++ toString (i + 1) ++ ": " ++ o.content ++ "\n\n" ++
      findingLines (i + 1) rest

/-- `Agent::generate_partial_answer_from_observations` (src/agent.rs:375-398):
purely deterministic, issues no model call. -/
def partialAnswer (observations : List Observation) (query : String) :
    String × List String :=
  ("I encountered an issue while processing your question about '" ++ query ++
      "', but here's what I found so far:\n\n" ++ findingLines 0 observations ++
      "\nI apologize that I couldn't complete the full analysis due to technical limitations.",
    observations.map Observation.content)

/-- Outcome of one iteration of the planning loop: either the loop
continues with an updated state, or the iteration `return`s out of
`plan_and_execute` early (the chat-error paths, src/agent.rs:271-278). -/
inductive StepRes where
  | cont (st : EngineState)
  | early (r : Except String (String × List String))

/-- `execute_action` (src/agent.rs:529-596).  `chatRes` is the outcome of
the one `llm.chat` call the action may issue; the returned flag is `1` when
that call was actually issued (so the caller can advance the call
counter). -/
def execute_action (a : AgentAction) (chatRes : Except String String) :
    Except String String × Nat :=
  match a.action_type with
  | "search_information" =>
    match (a.parameters.get "query").bind JsonVal.asStr with
    | none => (.error "No search query provided", 0)
    | some q =>
      if q = "" then (.ok "No search query provided.", 0)
      else
        match chatRes with
        | .ok r => (.ok r, 1)
        | .error e => (.error ("Search error: " ++ e), 1)
  | "perform_calculation" =>
    match (a.parameters.get "expression").bind JsonVal.asStr with
    | none => (.error "No calculation expression provided", 0)
    | some x =>
      if x = "" then (.ok "No calculation expression provided.", 0)
      else
        match chatRes with
        | .ok r => (.ok r, 1)
        | .error e => (.error ("Calculation error: " ++ e), 1)
  | _ => (.error ("Unsupported action: " ++ a.action_type), 0)

/-- One iteration of the `while` body of `Agent::plan_and_execute`
(src/agent.rs:216-358).  `oracle n` is the outcome of the n-th `llm.chat`
call of the run (`st.calls` counts them); `jp` is `serde_json::from_str`. -/
def stepEngine (oracle : Nat → Except String String)
    (jp : String → Option JsonVal) (query : String) (st : EngineState) :
    StepRes :=
  match st.pstate with
  | .Start =>
    .cont { st with
      thoughts := st.thoughts ++ [⟨startThought query, st.clock⟩],
      clock := st.clock + 1,
      pstate := .Thinking }
  | .Thinking =>
    let cnt := st.consecutive_thinking_count + 1
    if cnt > 5 then
      -- consecutive-thinking fallback (src/agent.rs:233-260)
      if st.observations ≠ [] then
        .cont { st with
          consecutive_thinking_count := cnt,
          thinkEntries := st.thinkEntries + 1,
          final_answer := (partialAnswer st.observations query).1,
          pstate := .Finished }
      else
        let direct :=
          match oracle st.calls with
          | .ok r => r
          | .error _ => apologyFallback
        .cont { st with
          consecutive_thinking_count := cnt,
          thinkEntries := st.thinkEntries + 1,
          calls := st.calls + 1,
          final_answer := fallbackPrefix query ++ direct,
          pstate := .Finished }
    else
      match oracle st.calls with
      | .error e =>
        -- src/agent.rs:271-278: early return out of the whole run
        if st.observations ≠ [] then
          .early (.ok (partialAnswer st.observations query))
        else
          .early (.error ("Failed to get LLM response: " ++ e))
      | .ok response =>
        match parse_from_llm_response jp response with
        | some (atype, params) =>
          -- src/agent.rs:283-284: counter reset on any parsed action
          if atype = "answer" then
            match params.get "final_answer" with
            | some answer =>
              let fa := answer.asStr.getD ""
              .cont { st with
                consecutive_thinking_count := 0,
                thinkEntries := st.thinkEntries + 1,
                calls := st.calls + 1,
                final_answer := fa,
                pstate := .Finished,
                thoughts :=
                  st.thoughts ++ [⟨"I now have the answer: " ++ fa, st.clock⟩],
                clock := st.clock + 1 }
            | none =>
              .cont { st with
                consecutive_thinking_count := 0,
                thinkEntries := st.thinkEntries + 1,
                calls := st.calls + 1,
                thoughts :=
                  st.thoughts ++ [⟨"I need to provide a clear answer", st.clock⟩],
                clock := st.clock + 1 }
          else
            .cont { st with
              consecutive_thinking_count := 0,
              thinkEntries := st.thinkEntries + 1,
              calls := st.calls + 1,
              thoughts := st.thoughts ++ [⟨"I need to " ++ atype, st.clock⟩],
              actions := st.actions ++ [⟨atype, params, st.clock + 1⟩],
              clock := st.clock + 2,
              pstate := .Acting }
        | none =>
          .cont { st with
            consecutive_thinking_count := cnt,
            thinkEntries := st.thinkEntries + 1,
            calls := st.calls + 1,
            thoughts := st.thoughts ++ [⟨response, st.clock⟩],
            clock := st.clock + 1 }
  | .Acting =>
    match st.actions.getLast? with
    | some a =>
      let res := execute_action a (oracle st.calls)
      let content :=
        match res.1 with
        | .ok r => r
        | .error e => "Error: " ++ e
      .cont { st with
        observations := st.observations ++ [⟨content, a.ts, st.clock⟩],
        clock := st.clock + 1,
        calls := st.calls + res.2,
        pstate := .Observing }
    | none => .cont { st with pstate := .Thinking }
  | .Observing =>
    .cont { st with pstate := .Thinking, current_step := st.current_step + 1 }
  | .Finished => .cont st

/-- Outcome of running the planning loop under a fuel bound. -/
inductive LoopRes where
  | exited (st : EngineState)
  | early (r : Except String (String × List String))
  | fuelOut (st : EngineState)

/-- The `while current_step < max_steps && state != Finished` loop
(src/agent.rs:216), with `fuel` bounding the number of iterations the model
may unfold (`fuelOut` stands for a run still going after that many). -/
def runLoop (maxSteps : Nat) (oracle : Nat → Except String String)
    (jp : String → Option JsonVal) (query : String) :
    Nat → EngineState → LoopRes
  | 0, st => .fuelOut st
  | fuel + 1, st =>
    if st.current_step < maxSteps ∧ st.pstate ≠ .Finished then
      match stepEngine oracle jp query st with
      | .cont st' => runLoop maxSteps oracle jp query fuel st'
      | .early r => .early r
    else .exited st

/-- Fixed fallback of `generate_final_answer` (src/agent.rs:524). -/
def finalAnswerFallback : String :=
  "I wasn't able to find a complete answer to your question in the time available."

/-- Post-loop epilogue of `plan_and_execute` (src/agent.rs:361-371): if the
loop exited without reaching `Finished`, one more chat call
(`generate_final_answer`, src/agent.rs:477-527) produces the answer, with a
fixed fallback string on failure; the observation texts are returned in
creation order. -/
def finishRun (oracle : Nat → Except String String) (st : EngineState) :
    Except String (String × List String) :=
  let fa :=
    if st.pstate ≠ .Finished then
      match oracle st.calls with
      | .ok a => a
      | .error _ => finalAnswerFallback
    else st.final_answer
  .ok (fa, st.observations.map Observation.content)

/-- Rust `str::to_lowercase`, restricted to per-char lowering. -/
def toLowerStr (s : String) : String :=
  ⟨s.toList.map Char.toLower⟩

/-- The greeting shortcut condition (src/agent.rs:189-193). -/
def isGreetingShortcut (q : String) : Bool :=
  q.length < 10 &&
    (strContains (toLowerStr q) "hello" || strContains (toLowerStr q) "hi" ||
      strContains (toLowerStr q) "hey")

/-- Canned greeting (src/agent.rs:195). -/
def cannedGreeting : String := "Hello! How can I assist you today?"

/-- `AgentConfig::default().max_steps` (src/agent.rs:139). -/
def defaultMaxSteps : Nat := 3

/-- `Agent::plan_and_execute` (src/agent.rs:164-372): greeting shortcut,
then the planning loop, then the epilogue.  `none` means the loop was still
running after `fuel` iterations. -/
def plan_and_execute (maxSteps : Nat) (oracle : Nat → Except String String)
    (jp : String → Option JsonVal) (query : String) (fuel : Nat) :
    Option (Except String (String × List String)) :=
  if isGreetingShortcut query then some (.ok (cannedGreeting, []))
  else
    match runLoop maxSteps oracle jp query fuel initState with
    | .exited st => some (finishRun oracle st)
    | .early r => some r
    | .fuelOut _ => none

/-! ## LLM gateway retry loop (src/llm.rs)

`MistralClient::chat` (src/llm.rs:106-157) and
`MistralEmbedding::embed_text` (src/llm.rs:215-261) run the same
`while retries < MAX_RETRIES` loop; they differ only in what they extract
from a successful provider response.  `call n` is the outcome of the n-th
provider attempt (`n` equals the `retries` counter when the attempt is
issued, since only rate-limited attempts increment it and continue). -/

/-- Outcome of one raw provider attempt. -/
inductive ApiOutcome (R : Type) where
  | ok (r : R)
  | err (m : String)

/-- `MAX_RETRIES` (src/llm.rs:18). -/
def MAX_RETRIES : Nat := 3

/-- `RETRY_DELAY_MS` (src/llm.rs:19). -/
def RETRY_DELAY_MS : Nat := 1000

/-- The rate-limit test on provider error text (src/llm.rs:131, 235). -/
def isRateLimitMsg (m : String) : Bool :=
  strContains m "rate limit" || strContains m "Requests rate limit exceeded"

/-- Error returned once the rate-limit retries are exhausted
(src/llm.rs:141, 245). -/
def rateLimitFinal : String :=
  "Rate limit exceeded. Please try again in a few minutes."

/-- Post-`break` error (src/llm.rs:154-156, 258-260). -/
def apiErrorMsg (retries : Nat) (m : String) : String :=
  "API error after " ++ toString retries ++ " retries: " ++ m

/-- What one run of the retry loop did: its result, the backoff sleeps it
performed (in ms, in order), and how many provider attempts it issued. -/
structure RetryOutcome (T : Type) where
  result : Except String T
  sleeps : List Nat
  attempts : Nat

/-- The shared retry loop (src/llm.rs:110-151 and 219-255), from the current
value of the `retries` counter.  On success `extract` reads the payload out
of the response (its `Err` is returned without further attempts, matching
the `?` operator); a rate-limited failure sleeps
`RETRY_DELAY_MS * 2 ^ retries'` ms (with `retries'` the already-incremented
counter) and continues; any other failure breaks out to the
`apiErrorMsg` return. -/
def retryGo {R T : Type} (call : Nat → ApiOutcome R)
    (extract : R → Except String T) (retries : Nat) (sleeps : List Nat) :
    RetryOutcome T :=
  if _h : retries < MAX_RETRIES then
    match call retries with
    | .ok resp => ⟨extract resp, sleeps, retries + 1⟩
    | .err m =>
      if isRateLimitMsg m then
        if retries + 1 < MAX_RETRIES then
          retryGo call extract (retries + 1)
            (sleeps ++ [RETRY_DELAY_MS * 2 ^ (retries + 1)])
        else ⟨.error rateLimitFinal, sleeps, retries + 1⟩
      else ⟨.error (apiErrorMsg retries m), sleeps, retries + 1⟩
  else ⟨.error (apiErrorMsg retries "Unknown error"), sleeps, retries⟩
termination_by MAX_RETRIES - retries
decreasing_by simp [MAX_RETRIES] at *; omega

/-- Choice extraction of `chat` (src/llm.rs:113-125): first choice or
`"No choices in response"`, content `unwrap_or_default`. -/
def chatExtract (choices : List (Option String)) : Except String String :=
  match choices with
  | [] => .error "No choices in response"
  | c :: _ => .ok (c.getD "")

/-- The retry/extract pipeline of `MistralClient::chat`. -/
def chatCall (call : Nat → ApiOutcome (List (Option String))) :
    RetryOutcome String :=
  retryGo call chatExtract 0 []

/-- Embedding extraction of `embed_text` (src/llm.rs:221-229): first datum
or `"No embedding returned"`. -/
def embedExtract (data : List (List Nat)) : Except String (List Nat) :=
  match data with
  | [] => .error "No embedding returned"
  | e :: _ => .ok e

/-- The retry/extract pipeline of `MistralEmbedding::embed_text`. -/
def embedCall (call : Nat → ApiOutcome (List (List Nat))) :
    RetryOutcome (List Nat) :=
  retryGo call embedExtract 0 []

/-! ## Cosine similarity (src/memory.rs:302-316 and src/llm.rs:263-278)

`cosine_similarity` in src/memory.rs and `MistralEmbedding::similarity` in
src/llm.rs are the same function.  `f32` arithmetic is modelled over `ℚ`
with the square root left abstract (`sqrt`): the guards compare the computed
magnitudes — i.e. `sqrt` of the sums of squares — against zero exactly as
the source does. -/

/-- `a.iter().zip(b.iter()).map(|(x, y)| x * y).sum()`. -/
def dotProduct (a b : List ℚ) : ℚ :=
  ((a.zip b).map (fun p => p.1 * p.2)).sum

/-- `v.iter().map(|x| x * x).sum()`. -/
def sumSquares (a : List ℚ) : ℚ :=
  (a.map (fun x => x * x)).sum

/-- `cosine_similarity` (src/memory.rs:302-316), identically
`MistralEmbedding::similarity` (src/llm.rs:263-278). -/
def cosine_similarity (sqrt : ℚ → ℚ) (a b : List ℚ) : ℚ :=
  if a.length ≠ b.length ∨ a = [] then 0
  else
    let magnitude_a := sqrt (sumSquares a)
    let magnitude_b := sqrt (sumSquares b)
    if magnitude_a = 0 ∨ magnitude_b = 0 then 0
    else dotProduct a b / (magnitude_a * magnitude_b)

/-! ## Memory store (src/memory.rs)

The SQLite table `memories (id INTEGER PRIMARY KEY, …, UNIQUE(chat_id,
user_id, timestamp))` is a list of rows plus the next rowid.  `f32` values
are their IEEE-754 bit patterns (`Nat < 2^32`); `to_le_bytes` /
`from_le_bytes` move exactly those bits.  `timestamp.to_rfc3339()` is
injective and parsed back verbatim, so the model stores the `Nat` instant
itself. -/

structure Memory where
  id : Option Nat
  chat_id : String
  user_id : String
  timestamp : Nat
  content : String
  embedding : Option (List Nat)
  metadata : Option String
deriving DecidableEq, Repr

/-- One row of the `memories` table; `embedding` is the raw byte blob. -/
structure Row where
  id : Nat
  chat_id : String
  user_id : String
  timestamp : Nat
  content : String
  embedding : Option (List Nat)
  metadata : Option String
deriving DecidableEq, Repr

/-- The `memories` table plus SQLite's next rowid. -/
structure Db where
  rows : List Row
  nextId : Nat
deriving DecidableEq, Repr

/-- Row ids already assigned stay below the next rowid (SQLite invariant
for `INTEGER PRIMARY KEY` auto-assignment). -/
def DbWf (db : Db) : Prop :=
  ∀ r ∈ db.rows, r.id < db.nextId

/-- `f32::to_le_bytes` on a bit pattern. -/
def f32ToLeBytes (x : Nat) : List Nat :=
  [x % 256, x / 256 % 256, x / 256 ^ 2 % 256, x / 256 ^ 3 % 256]

/-- `f32::from_le_bytes` on four bytes. -/
def f32FromLeBytes (b0 b1 b2 b3 : Nat) : Nat :=
  b0 + 256 * b1 + 256 ^ 2 * b2 + 256 ^ 3 * b3

/-- The blob written by `store_memory` (src/memory.rs:66-71):
`e.iter().flat_map(|&f| f.to_le_bytes().to_vec()).collect()`. -/
def encodeEmbedding (v : List Nat) : List Nat :=
  v.flatMap f32ToLeBytes

/-- The read-side decoding loop (src/memory.rs:118-128, 183-193, 267-277):
`blob.chunks(4)`, keeping only chunks of length exactly 4, each through
`f32::from_le_bytes`. -/
def decodeEmbedding : List Nat → List Nat
  | b0 :: b1 :: b2 :: b3 :: rest =>
    f32FromLeBytes b0 b1 b2 b3 :: decodeEmbedding rest
  | _ => []

/-- The `UNIQUE(chat_id, user_id, timestamp)` natural-key match. -/
def keyEq (m : Memory) (r : Row) : Bool :=
  r.chat_id == m.chat_id && r.user_id == m.user_id &&
    r.timestamp == m.timestamp

/-- `MemoryStore::store_memory` (src/memory.rs:60-91): `INSERT OR REPLACE`
deletes any row conflicting on the natural key and inserts a fresh row with
a newly assigned rowid; `last_insert_rowid()` — the new row's id — is
returned. -/
def store_memory (db : Db) (m : Memory) : Db × Nat :=
  let embedding_blob := m.embedding.map encodeEmbedding
  let newRow : Row :=
    ⟨db.nextId, m.chat_id, m.user_id, m.timestamp, m.content,
      embedding_blob, m.metadata⟩
  (⟨db.rows.filter (fun r => ! keyEq m r) ++ [newRow], db.nextId + 1⟩,
    db.nextId)

/-- Row-to-`Memory` conversion shared by the readers
(src/memory.rs:108-139, 257-289). -/
def rowToMemory (r : Row) : Memory :=
  ⟨some r.id, r.chat_id, r.user_id, r.timestamp, r.content,
    r.embedding.map decodeEmbedding, r.metadata⟩

/-- `MemoryStore::get_memory` (src/memory.rs:247-298): `WHERE id = ?1`,
`None` when no row matches. -/
def get_memory (db : Db) (id : Nat) : Option Memory :=
  (db.rows.find? (fun r => r.id == id)).map rowToMemory

/-! ## `MemoryCmd::recall_memory` (src/commands/memory.rs:155-222)

The awaited collaborator results are passed in: `embedRes` is the outcome
of `embed_text(query)`, `searchRes qe` that of
`search_similar_memories(chat_id, qe, 5)`, `recentRes` that of
`get_recent_memories(chat_id, 5)`.  `fmtTs` renders
`timestamp.format("%Y-%m-%d %H:%M")` and `fmtScore` the `{:.2}` score. -/

/-- A recency-listing line (src/commands/memory.rs:178-184, 197-203). -/
def recentLine (fmtTs : Nat → String) (m : Memory) : String :=
  "- [" ++ fmtTs m.timestamp ++ "]: " ++ m.content

/-- A semantic-search line (src/commands/memory.rs:165-172). -/
def similarLine (fmtTs : Nat → String) (fmtScore : ℚ → String)
    (m : Memory) (score : ℚ) : String :=
  "- [" ++ fmtTs m.timestamp ++ "] (similarity: " ++ fmtScore score ++
    "): " ++ m.content

/-- Success message when nothing was found (src/commands/memory.rs:213). -/
def noRelevantMemories : String :=
  "I don't have any relevant memories for that query."

/-- The nonempty-reply wrapper (src/commands/memory.rs:215-219). -/
def recallHeader (query : String) (lines : List String) : String :=
  "Here's what I remember about '" ++ query ++ "':\n\n" ++
    String.intercalate "\n" lines

/-- `MemoryCmd::recall_memory` (src/commands/memory.rs:155-222). -/
def recall_memory (fmtTs : Nat → String) (fmtScore : ℚ → String)
    (query : String) (embedRes : Except String (List Nat))
    (searchRes : List Nat → Except String (List (Memory × ℚ)))
    (recentRes : Except String (List Memory)) : Except String String :=
  let recentFallback : Except String (List String) :=
    match recentRes with
    | .ok recent => .ok (recent.map (recentLine fmtTs))
    | .error e => .error ("Failed to get recent memories: " ++ e)
  let memories : Except String (List String) :=
    match embedRes with
    | .ok query_embedding =>
      match searchRes query_embedding with
      | .ok results =>
        if results ≠ [] then
          .ok (results.map (fun p => similarLine fmtTs fmtScore p.1 p.2))
        else recentFallback
      | .error _ => recentFallback
    | .error _ => recentFallback
  match memories with
  | .error e => .error e
  | .ok ms =>
    if ms = [] then .ok noRelevantMemories else .ok (recallHeader query ms)

/-- Modelled from the spec's words ("a recall request returns results
identical to calling the recency query directly"): the reply a direct
recency listing would produce, for comparison with `recall_memory`'s
fallback paths. -/
def directRecencyReply (fmtTs : Nat → String) (query : String)
    (recentRes : Except String (List Memory)) : Except String String :=
  match recentRes with
  | .error e => .error ("Failed to get recent memories: " ++ e)
  | .ok recent =>
    if recent = [] then .ok noRelevantMemories
    else .ok (recallHeader query (recent.map (recentLine fmtTs)))

/-! ## Spec-side chronological transcript (for claim C1)

The spec describes the transcript as "all Thoughts/Actions/Observations
interleaved in chronological order, each tagged with its 1-based index and
role" plus a trailing next-step prompt.  The following definitions follow
those words: tag every item with its creation instant and its own 1-based
index/role, sort by creation instant, then append the prompt. -/

/-- All thoughts tagged `(creation instant, message)`, indices from `i`. -/
def tagThoughts (i : Nat) : List Thought → List (Nat × ChatMessage)
  | [] => []
  | t :: th => (t.ts, thoughtMsg i t) :: tagThoughts (i + 1) th

/-- All actions tagged `(creation instant, message)`, indices from `i`. -/
def tagActions (i : Nat) : List AgentAction → List (Nat × ChatMessage)
  | [] => []
  | a :: ac => (a.ts, actionMsg i a) :: tagActions (i + 1) ac

/-- All observations tagged `(creation instant, message)`, indices from `i`. -/
def tagObs (i : Nat) : List Observation → List (Nat × ChatMessage)
  | [] => []
  | o :: ob => (o.ts, obsMsg i o) :: tagObs (i + 1) ob

/-- Comparison by creation instant. -/
def tsLe (a b : Nat × ChatMessage) : Bool :=
  decide (a.1 ≤ b.1)

/-- Modelled from the spec: every Thought, Action and Observation, each
tagged with its 1-based index and role, interleaved in chronological
(creation) order. -/
def transcriptChronological (th : List Thought) (ac : List AgentAction)
    (ob : List Observation) : List ChatMessage :=
  ((tagThoughts 0 th ++ tagActions 0 ac ++ tagObs 0 ob).mergeSort tsLe).map
    Prod.snd

/-- Modelled from the spec: the chronological transcript followed by the
one trailing prompt asking for the next step. -/
def chronologicalHistory (th : List Thought) (ac : List AgentAction)
    (ob : List Observation) : List ChatMessage :=
  let msgs := transcriptChronological th ac ob
  msgs ++ [⟨"user", if msgs.isEmpty then firstStepPrompt else nextStepPrompt⟩]

/-- A session state whose three lists are accumulated in chronological
creation order: each list is strictly increasing in creation instant, and
no instant repeats across the lists (creations are sequential). -/
def StrictChron (th : List Thought) (ac : List AgentAction)
    (ob : List Observation) : Prop :=
  List.Pairwise (· < ·) (th.map Thought.ts) ∧
    List.Pairwise (· < ·) (ac.map AgentAction.ts) ∧
    List.Pairwise (· < ·) (ob.map Observation.ts) ∧
    (th.map Thought.ts ++ ac.map AgentAction.ts ++
        ob.map Observation.ts).Nodup

/-- `histCore` with each emitted message tagged by the creation instant of
its source item: the code-side transcript in the code's own (index-pairing)
order. -/
def taggedCore (i : Nat) :
    List Thought → List AgentAction → List Observation →
      List (Nat × ChatMessage)
  | [], _, _ => []
  | t :: th, ac, ob =>
    (t.ts, thoughtMsg i t) ::
      match ac with
      | [] => taggedCore (i + 1) th [] ob
      | a :: ac' =>
        (a.ts, actionMsg i a) ::
          match ob with
          | [] => taggedCore (i + 1) th ac' []
          | o :: ob' => (o.ts, obsMsg i o) :: taggedCore (i + 1) th ac' ob'

theorem histCore_eq_map_taggedCore (i : Nat) (th : List Thought)
    (ac : List AgentAction) (ob : List Observation) :
    histCore i th ac ob = (taggedCore i th ac ob).map Prod.snd := by
  induction th generalizing i ac ob with
  | nil => simp [histCore, taggedCore]
  | cons t th ih =>
    match ac, ob with
    | [], ob => simp [histCore, taggedCore, ih]
    | a :: ac', [] => simp [histCore, taggedCore, ih]
    | a :: ac', o :: ob' => simp [histCore, taggedCore, ih]

theorem taggedCore_perm (i : Nat) (th : List Thought) (ac : List AgentAction)
    (ob : List Observation) (h1 : ob.length ≤ ac.length)
    (h2 : ac.length ≤ th.length) :
    (taggedCore i th ac ob).Perm
      (tagThoughts i th ++ tagActions i ac ++ tagObs i ob) := by
  induction th generalizing i ac ob with
  | nil =>
    have hac : ac = [] := List.length_eq_zero.mp (Nat.le_zero.mp h2)
    subst hac
    have hob : ob = [] := List.length_eq_zero.mp (Nat.le_zero.mp h1)
    subst hob
    simp [taggedCore, tagThoughts, tagActions, tagObs]
  | cons t th ih =>
    match ac, ob with
    | [], ob =>
      have hob : ob = [] := List.length_eq_zero.mp (Nat.le_zero.mp h1)
      subst hob
      simpa [taggedCore, tagThoughts, tagActions, tagObs] using
        (ih (i + 1) [] [] (Nat.le_refl 0) (Nat.zero_le _)).cons
          (t.ts, thoughtMsg i t)
    | a :: ac', [] =>
      have hIH := ih (i + 1) ac' [] (Nat.zero_le _)
        (Nat.le_of_succ_le_succ h2)
      simp only [taggedCore, tagThoughts, tagActions, tagObs,
        List.append_nil, List.cons_append] at hIH ⊢
      exact ((hIH.cons (a.ts, actionMsg i a)).cons
        (t.ts, thoughtMsg i t)).trans
        (List.Perm.cons _ List.perm_middle.symm)
    | a :: ac', o :: ob' =>
      have hIH := ih (i + 1) ac' ob' (Nat.le_of_succ_le_succ h1)
        (Nat.le_of_succ_le_succ h2)
      simp only [taggedCore, tagThoughts, tagActions, tagObs,
        List.cons_append] at hIH ⊢
      refine (((hIH.cons (o.ts, obsMsg i o)).cons
        (a.ts, actionMsg i a)).cons (t.ts, thoughtMsg i t)).trans ?_
      refine List.Perm.cons _ ?_
      generalize tagThoughts (i + 1) th = Th
      generalize tagActions (i + 1) ac' = Ac
      generalize tagObs (i + 1) ob' = Ob
      have s1 : ((o.ts, obsMsg i o) :: (Th ++ Ac ++ Ob)).Perm
          ((Th ++ Ac) ++ (o.ts, obsMsg i o) :: Ob) := List.perm_middle.symm
      refine (s1.cons (a.ts, actionMsg i a)).trans ?_
      rw [List.append_assoc Th Ac, List.append_assoc Th]
      simp only [List.cons_append]
      exact List.perm_middle.symm

unseal List.merge List.mergeSort in
/-- C1, counterexample.  The claim says that for every session state whose
Thoughts, Actions and Observations are accumulated in chronological creation
order, `build_message_history` lists every item in chronological order
(tagged, with the stated roles) followed by the trailing prompt.  This is
false: the code pairs `actions[i]`/`observations[i]` with thought `i`, so
with three thoughts (instants 0,1,2) and an action/observation pair created
after them (instants 3,4) — exactly the state a run produces when its first
model response parses as no action — the history interleaves the action and
observation right after the first thought, out of chronological order. -/
theorem build_message_history_not_chronological :
    StrictChron [⟨"a", 0⟩, ⟨"b", 1⟩, ⟨"c", 2⟩]
        [⟨"search_information", .obj [], 3⟩]
        [⟨"Error: No search query provided", 3, 4⟩] ∧
      build_message_history [⟨"a", 0⟩, ⟨"b", 1⟩, ⟨"c", 2⟩]
          [⟨"search_information", .obj [], 3⟩]
          [⟨"Error: No search query provided", 3, 4⟩] ≠
        chronologicalHistory [⟨"a", 0⟩, ⟨"b", 1⟩, ⟨"c", 2⟩]
          [⟨"search_information", .obj [], 3⟩]
          [⟨"Error: No search query provided", 3, 4⟩] := by
  constructor
  · constructor
    · decide
    · refine ⟨by decide, by decide, by decide⟩
  · decide

/-- C1, amended: `build_message_history` emits, for each thought index `i`
in ascending order, thought `i` then (when present) action `i` then
observation `i`, each tagged with the 1-based index `i+1`, thoughts and
actions with role "assistant" and observations with role "user", followed
by the one trailing next-step prompt; this equals the fully chronological
transcript whenever the creation instants increase along that pairing order
(in particular whenever each action and its observation are created
immediately after their recorded thought), with at most as many
observations as actions and at most as many actions as thoughts. -/
theorem build_message_history_chronological_of_aligned (th : List Thought)
    (ac : List AgentAction) (ob : List Observation)
    (h1 : ob.length ≤ ac.length) (h2 : ac.length ≤ th.length)
    (h3 : List.Pairwise (· < ·) ((taggedCore 0 th ac ob).map Prod.fst)) :
    build_message_history th ac ob = chronologicalHistory th ac ob := by
  have hperm := taggedCore_perm 0 th ac ob h1 h2
  have htrans : ∀ a b c : Nat × ChatMessage, tsLe a b → tsLe b c →
      tsLe a c := by
    intro a b c hab hbc
    simp only [tsLe, decide_eq_true_eq] at *
    omega
  have htotal : ∀ a b : Nat × ChatMessage, tsLe a b || tsLe b a := by
    intro a b
    simp only [tsLe]
    by_cases h : a.1 ≤ b.1
    · simp [h]
    · simp only [Bool.or_eq_true, decide_eq_true_eq]
      omega
  have hle := List.sorted_mergeSort htrans htotal
    (tagThoughts 0 th ++ tagActions 0 ac ++ tagObs 0 ob)
  have hLpair : (taggedCore 0 th ac ob).Pairwise (fun a b => a.1 < b.1) :=
    List.pairwise_map.mp h3
  have hkeysNodupL : ((taggedCore 0 th ac ob).map Prod.fst).Nodup :=
    h3.imp Nat.ne_of_lt
  have hsortPerm :
      ((tagThoughts 0 th ++ tagActions 0 ac ++ tagObs 0 ob).mergeSort
        tsLe).Perm (taggedCore 0 th ac ob) :=
    (List.mergeSort_perm _ tsLe).trans hperm.symm
  have hkeysNodupS :
      (((tagThoughts 0 th ++ tagActions 0 ac ++ tagObs 0 ob).mergeSort
        tsLe).map Prod.fst).Nodup :=
    ((hsortPerm.map Prod.fst).nodup_iff).mpr hkeysNodupL
  have hneS := List.pairwise_map.mp hkeysNodupS
  have hltS :
      ((tagThoughts 0 th ++ tagActions 0 ac ++ tagObs 0 ob).mergeSort
        tsLe).Pairwise (fun a b => a.1 < b.1) :=
    (hle.and hneS).imp
      (fun h => lt_of_le_of_ne (by simpa [tsLe] using h.1) h.2)
  haveI : IsAntisymm (Nat × ChatMessage) (fun a b => a.1 < b.1) :=
    ⟨fun a b hab hba => absurd (hab.trans hba) (lt_irrefl _)⟩
  have heq :
      (tagThoughts 0 th ++ tagActions 0 ac ++ tagObs 0 ob).mergeSort tsLe =
        taggedCore 0 th ac ob :=
    List.eq_of_perm_of_sorted hsortPerm hltS hLpair
  simp only [build_message_history, chronologicalHistory,
    transcriptChronological, histCore_eq_map_taggedCore, heq]

/-- Witness for the amended C1 theorem: an aligned two-thought session
(thought, action, observation, thought created at instants 0,1,2,3). -/
theorem build_message_history_chronological_of_aligned_witness :
    build_message_history [⟨"a", 0⟩, ⟨"b", 3⟩]
        [⟨"search_information", .obj [], 1⟩] [⟨"done", 1, 2⟩] =
      chronologicalHistory [⟨"a", 0⟩, ⟨"b", 3⟩]
        [⟨"search_information", .obj [], 1⟩] [⟨"done", 1, 2⟩] :=
  build_message_history_chronological_of_aligned _ _ _ (by decide)
    (by decide) (by decide)

/-- Once the loop has properly exited (not merely run out of fuel), adding
fuel does not change the outcome. -/
theorem runLoop_mono (m : Nat) (o : Nat → Except String String)
    (j : String → Option JsonVal) (q : String) :
    ∀ (fuel fuel' : Nat) (st : EngineState), fuel ≤ fuel' →
      (∀ s, runLoop m o j q fuel st ≠ .fuelOut s) →
      runLoop m o j q fuel' st = runLoop m o j q fuel st := by
  intro fuel
  induction fuel with
  | zero =>
    intro fuel' st _ hnf
    exact absurd rfl (hnf st)
  | succ n ih =>
    intro fuel' st hle hnf
    cases fuel' with
    | zero => exact absurd hle (by omega)
    | succ fuel'' =>
      have hle' : n ≤ fuel'' := Nat.le_of_succ_le_succ hle
      rw [runLoop] at hnf
      rw [runLoop, runLoop]
      by_cases hc : st.current_step < m ∧ st.pstate ≠ PlanningState.Finished
      · simp only [if_pos hc] at hnf ⊢
        cases hs : stepEngine o j q st with
        | cont st2 =>
          simp only [hs] at hnf ⊢
          exact ih fuel'' st2 hle' hnf
        | early r => simp only [hs]
      · simp only [if_neg hc]

/-- C2: in a run whose planning loop is reached (no greeting shortcut, a
positive step budget) and in which every model response fails to parse as
an action, the engine enters the `Thinking` arm exactly 6 times, the sixth
entry trips the `> 5` consecutive-thinking guard, producing the fallback
answer (the fixed prefix plus one direct tool-free chat reply — the sixth
model response) and moving to `Finished`; the loop has then properly
exited after 8 iterations, and any larger fuel bound gives the same
completed run — the loop never runs forever. -/
theorem planning_loop_terminates_when_unparsable (maxSteps : Nat)
    (oracle : Nat → Except String String) (jp : String → Option JsonVal)
    (query : String) (resp : Nat → String)
    (hok : ∀ i, oracle i = .ok (resp i))
    (hnp : ∀ i, parse_from_llm_response jp (resp i) = none)
    (hgr : isGreetingShortcut query = false) (hms : 0 < maxSteps) :
    runLoop maxSteps oracle jp query 8 initState =
        .exited
          { pstate := .Finished,
            thoughts :=
              [⟨startThought query, 0⟩, ⟨resp 0, 1⟩, ⟨resp 1, 2⟩,
                ⟨resp 2, 3⟩, ⟨resp 3, 4⟩, ⟨resp 4, 5⟩],
            actions := [], observations := [], current_step := 0,
            final_answer := fallbackPrefix query ++ resp 5,
            consecutive_thinking_count := 6, clock := 6, calls := 6,
            thinkEntries := 6 } ∧
      ∀ fuel, 8 ≤ fuel →
        plan_and_execute maxSteps oracle jp query fuel =
          some (.ok (fallbackPrefix query ++ resp 5, [])) := by
  have h0 := hok 0
  have h1 := hok 1
  have h2 := hok 2
  have h3 := hok 3
  have h4 := hok 4
  have h5 := hok 5
  have p0 := hnp 0
  have p1 := hnp 1
  have p2 := hnp 2
  have p3 := hnp 3
  have p4 := hnp 4
  have hrun : runLoop maxSteps oracle jp query 8 initState =
      .exited
        { pstate := .Finished,
          thoughts :=
            [⟨startThought query, 0⟩, ⟨resp 0, 1⟩, ⟨resp 1, 2⟩,
              ⟨resp 2, 3⟩, ⟨resp 3, 4⟩, ⟨resp 4, 5⟩],
          actions := [], observations := [], current_step := 0,
          final_answer := fallbackPrefix query ++ resp 5,
          consecutive_thinking_count := 6, clock := 6, calls := 6,
          thinkEntries := 6 } := by
    simp +decide [runLoop, stepEngine, initState, h0, h1, h2, h3, h4, h5,
      p0, p1, p2, p3, p4, hms]
  refine ⟨hrun, ?_⟩
  intro fuel hfuel
  have hmono := runLoop_mono maxSteps oracle jp query 8 fuel initState hfuel
    (by intro s; rw [hrun]; exact fun h => LoopRes.noConfusion h)
  rw [plan_and_execute, if_neg (by simp [hgr]), hmono, hrun]
  simp [finishRun]

/-- Witness for C2: a constant unparsable response
(`"PARAMETERS: junk"` contains `PARAMETERS:` and no `ACTION:`, so parsing
yields no action), a non-greeting query, the default step budget. -/
theorem planning_loop_terminates_when_unparsable_witness :
    runLoop defaultMaxSteps (fun _ => .ok "PARAMETERS: junk")
        (fun _ => none) "what is 2+2" 8 initState =
        .exited
          { pstate := .Finished,
            thoughts :=
              [⟨startThought "what is 2+2", 0⟩, ⟨"PARAMETERS: junk", 1⟩,
                ⟨"PARAMETERS: junk", 2⟩, ⟨"PARAMETERS: junk", 3⟩,
                ⟨"PARAMETERS: junk", 4⟩, ⟨"PARAMETERS: junk", 5⟩],
            actions := [], observations := [], current_step := 0,
            final_answer :=
              fallbackPrefix "what is 2+2" ++ "PARAMETERS: junk",
            consecutive_thinking_count := 6, clock := 6, calls := 6,
            thinkEntries := 6 } ∧
      ∀ fuel, 8 ≤ fuel →
        plan_and_execute defaultMaxSteps (fun _ => .ok "PARAMETERS: junk")
            (fun _ => none) "what is 2+2" fuel =
          some (.ok (fallbackPrefix "what is 2+2" ++ "PARAMETERS: junk",
            [])) :=
  planning_loop_terminates_when_unparsable defaultMaxSteps _ _ _
    (fun _ => "PARAMETERS: junk") (fun _ => rfl) (fun _ => rfl)
    (by decide) (by decide)

/-- A pattern starting with a non-whitespace character never occurs inside
an all-whitespace text. -/
theorem containsSub_eq_false_of_all_ws (c : Char) (rest : List Char)
    (hc : c.isWhitespace = false) :
    ∀ s : List Char, s.all Char.isWhitespace = true →
      containsSub s (c :: rest) = false := by
  intro s
  induction s with
  | nil => intro _; rfl
  | cons x t ih =>
    intro h
    rw [List.all_cons, Bool.and_eq_true] at h
    have hne : (c == x) = false := by
      cases hq : c == x
      · rfl
      · exact absurd (eq_of_beq hq ▸ h.1) (by simp [hc])
    rw [containsSub, List.isPrefixOf_cons₂, hne]
    simpa using ih h.2

/-- Trimming an all-whitespace string yields the empty string. -/
theorem rustTrim_eq_empty_of_all_ws (r : String)
    (hws : r.toList.all Char.isWhitespace = true) : rustTrim r = "" := by
  have h1 : r.toList.dropWhile Char.isWhitespace = [] :=
    List.dropWhile_eq_nil_iff.mpr (by simpa [List.all_eq_true] using hws)
  simp [rustTrim, trimChars,
    show List.dropWhile Char.isWhitespace r.data = [] from h1]

/-- C3, counterexample.  The claim says the consecutive-thinking counter is
reset *only* by an `answer` action carrying `final_answer` or by a
non-answer action, "not in this omission case".  Running the loop on two
unparsable responses followed by `"ACTION: answer"` (an `answer` action
with no parameters at all): the third `Thinking` entry increments the
counter to 3, the response parses as an answer action without
`final_answer` — and the counter ends at 0, i.e. it *was* reset in the
omission case (src/agent.rs:282-284 resets on any parsed action before
inspecting it).  The omission thought is recorded, the state stays
`Thinking`, and `current_step` stays 0, as the rest of the claim says. -/
theorem answer_without_final_answer_run_counterexample :
    runLoop 3
        (fun i => .ok (if i < 2 then "PARAMETERS: junk" else "ACTION: answer"))
        (fun _ => none) "q" 4 initState =
      .fuelOut
        { pstate := .Thinking,
          thoughts :=
            [⟨startThought "q", 0⟩, ⟨"PARAMETERS: junk", 1⟩,
              ⟨"PARAMETERS: junk", 2⟩,
              ⟨"I need to provide a clear answer", 3⟩],
          actions := [], observations := [], current_step := 0,
          final_answer := "", consecutive_thinking_count := 0, clock := 4,
          calls := 3, thinkEntries := 3 } := by
  rfl

/-- C3, amended: when a model response parses as an `answer` action lacking
the `final_answer` parameter, the engine records the thought noting the
omission, remains in `Thinking`, and does not increment `current_step` —
but, contrary to the claim's final clause, the consecutive-thinking counter
is reset to 0 here exactly as for any other parsed action. -/
theorem answer_without_final_answer_resets_counter
    (oracle : Nat → Except String String) (jp : String → Option JsonVal)
    (query r : String) (params : JsonVal) (st : EngineState)
    (hst : st.pstate = .Thinking)
    (hcnt : st.consecutive_thinking_count + 1 ≤ 5)
    (hor : oracle st.calls = .ok r)
    (hp : parse_from_llm_response jp r = some ("answer", params))
    (hfa : params.get "final_answer" = none) :
    stepEngine oracle jp query st =
      .cont { st with
        consecutive_thinking_count := 0,
        thinkEntries := st.thinkEntries + 1,
        calls := st.calls + 1,
        thoughts :=
          st.thoughts ++ [⟨"I need to provide a clear answer", st.clock⟩],
        clock := st.clock + 1 } := by
  have hgt : ¬ st.consecutive_thinking_count + 1 > 5 := by omega
  simp [stepEngine, hst, hgt, hor, hp, hfa]

/-- Witness for the amended C3 theorem: a `Thinking` state with counter 2
receiving `"ACTION: answer"`. -/
theorem answer_without_final_answer_resets_counter_witness :
    stepEngine (fun _ => .ok "ACTION: answer") (fun _ => none) "q"
        ⟨.Thinking, [], [], [], 0, "", 2, 0, 0, 0⟩ =
      .cont
        { pstate := .Thinking, thoughts := [⟨"I need to provide a clear answer", 0⟩],
          actions := [], observations := [], current_step := 0,
          final_answer := "", consecutive_thinking_count := 0, clock := 1,
          calls := 1, thinkEntries := 1 } :=
  answer_without_final_answer_resets_counter _ _ _ "ACTION: answer"
    (.obj []) _ rfl (by decide) rfl rfl rfl

set_option maxRecDepth 4000 in
/-- C10, counterexample.  The claim says every empty or whitespace-only
reply parses to an `answer` action with empty `final_answer`; but a reply
of 500 spaces is whitespace-only and fails the `len < 500` test, so
`parse_from_llm_response` returns no action at all (the reply becomes a
plain Thought and the engine stays in `Thinking`). -/
theorem whitespace_reply_500_spaces_not_answer :
    (String.mk (List.replicate 500 ' ')).toList.all Char.isWhitespace =
        true ∧
      parse_from_llm_response (fun _ => none)
          (String.mk (List.replicate 500 ' ')) = none := by
  constructor
  · rfl
  · rfl

/-- C10, amended: for an empty or whitespace-only model reply *of length
under 500*, parsing yields an `answer` action whose `final_answer` is the
empty string, and a `Thinking` engine receiving such a reply (with the
consecutive-thinking guard not yet tripped) sets the session's final answer
to the empty string and transitions to `Finished`. -/
theorem whitespace_reply_yields_empty_answer
    (oracle : Nat → Except String String) (jp : String → Option JsonVal)
    (query r : String) (st : EngineState)
    (hws : r.toList.all Char.isWhitespace = true) (hlen : r.length < 500)
    (hst : st.pstate = .Thinking)
    (hcnt : st.consecutive_thinking_count + 1 ≤ 5)
    (hor : oracle st.calls = .ok r) :
    parse_from_llm_response jp r =
        some ("answer", .obj [("final_answer", .str "")]) ∧
      stepEngine oracle jp query st =
        .cont { st with
          consecutive_thinking_count := 0,
          thinkEntries := st.thinkEntries + 1,
          calls := st.calls + 1,
          final_answer := "",
          pstate := .Finished,
          thoughts :=
            st.thoughts ++ [⟨"I now have the answer: " ++ "", st.clock⟩],
          clock := st.clock + 1 } := by
  have hA : strContains r "ACTION:" = false :=
    containsSub_eq_false_of_all_ws 'A' _ rfl r.toList hws
  have hP : strContains r "PARAMETERS:" = false :=
    containsSub_eq_false_of_all_ws 'P' _ rfl r.toList hws
  have htrim := rustTrim_eq_empty_of_all_ws r hws
  have hparse : parse_from_llm_response jp r =
      some ("answer", .obj [("final_answer", .str "")]) := by
    simp [parse_from_llm_response, hA, hP, hlen, htrim]
  refine ⟨hparse, ?_⟩
  have hgt : ¬ st.consecutive_thinking_count + 1 > 5 := by omega
  simp [stepEngine, hst, hgt, hor, hparse, JsonVal.get, JsonVal.asStr]

/-- Witness for the amended C10 theorem: the empty reply arriving at the
first `Thinking` state of a run. -/
theorem whitespace_reply_yields_empty_answer_witness :
    parse_from_llm_response (fun _ => none) "" =
        some ("answer", .obj [("final_answer", .str "")]) ∧
      stepEngine (fun _ => .ok "") (fun _ => none) "q"
          ⟨.Thinking, [⟨startThought "q", 0⟩], [], [], 0, "", 0, 1, 0, 0⟩ =
        .cont
          { pstate := .Finished,
            thoughts :=
              [⟨startThought "q", 0⟩, ⟨"I now have the answer: " ++ "", 1⟩],
            actions := [], observations := [], current_step := 0,
            final_answer := "", consecutive_thinking_count := 0, clock := 2,
            calls := 1, thinkEntries := 1 } :=
  whitespace_reply_yields_empty_answer _ _ "q" "" _ rfl (by decide) rfl
    (by decide) rfl

/-- C4: for every reply without the `ACTION:` marker,
`parse_from_llm_response` yields an `answer` action whose `final_answer`
is the trimmed reply exactly when the reply is shorter than 500 and has no
`PARAMETERS:` marker; every other such reply yields no action.  (Holds for
every `serde_json` behaviour `jp`, which this branch never consults.) -/
theorem parse_reply_without_action_marker (jp : String → Option JsonVal)
    (r : String) (h : strContains r "ACTION:" = false) :
    (parse_from_llm_response jp r =
        some ("answer", .obj [("final_answer", .str (rustTrim r))]) ↔
      r.length < 500 ∧ strContains r "PARAMETERS:" = false) ∧
    (¬ (r.length < 500 ∧ strContains r "PARAMETERS:" = false) →
      parse_from_llm_response jp r = none) := by
  by_cases hc : r.length < 500 ∧ strContains r "PARAMETERS:" = false
  · obtain ⟨hl, hpm⟩ := hc
    constructor
    · simp [parse_from_llm_response, h, hl, hpm]
    · exact fun hn => absurd ⟨hl, hpm⟩ hn
  · have hnone : parse_from_llm_response jp r = none := by
      rw [parse_from_llm_response, if_pos (by simp [h]), if_neg]
      intro ⟨hl, hpm⟩
      exact hc ⟨hl, by simpa using hpm⟩
    constructor
    · rw [hnone]
      constructor
      · intro hsome
        exact absurd hsome (by simp)
      · intro hx
        exact absurd hx hc
    · intro _
      exact hnone

/-- Witness for C4: the reply `"  hello  "` (no markers, short) parses to
an `answer` action carrying the trimmed text `"hello"`. -/
theorem parse_reply_without_action_marker_witness :
    parse_from_llm_response (fun _ => none) "  hello  " =
      some ("answer", .obj [("final_answer", .str (rustTrim "  hello  "))]) :=
  (parse_reply_without_action_marker (fun _ => none) "  hello  " rfl).1.mpr
    ⟨by decide, rfl⟩

/-- C5: cosine similarity returns exactly 0 when the vectors' lengths
differ, when either vector is empty, or when either computed magnitude is
zero; in every remaining case the divisor of the one division performed is
provably nonzero — the function is total (it is a Lean function) and never
divides by zero.  Stated for every square-root model `sqrt`, covering both
`cosine_similarity` (src/memory.rs) and `MistralEmbedding::similarity`
(src/llm.rs), which are the same code. -/
theorem cosine_similarity_guards (sqrt : ℚ → ℚ) (a b : List ℚ) :
    (a.length ≠ b.length → cosine_similarity sqrt a b = 0) ∧
    (a = [] ∨ b = [] → cosine_similarity sqrt a b = 0) ∧
    (sqrt (sumSquares a) = 0 ∨ sqrt (sumSquares b) = 0 →
      cosine_similarity sqrt a b = 0) ∧
    (cosine_similarity sqrt a b = 0 ∨
      (sqrt (sumSquares a) * sqrt (sumSquares b) ≠ 0 ∧
        cosine_similarity sqrt a b =
          dotProduct a b / (sqrt (sumSquares a) * sqrt (sumSquares b)))) := by
  refine ⟨?_, ?_, ?_, ?_⟩
  · intro h
    rw [cosine_similarity, if_pos (Or.inl h)]
  · intro h
    by_cases ha : a = []
    · rw [cosine_similarity, if_pos (Or.inr ha)]
    · have hb : b = [] := h.resolve_left ha
      have hlen : a.length ≠ b.length := by
        simp [hb]
        exact ha
      rw [cosine_similarity, if_pos (Or.inl hlen)]
  · intro h
    by_cases h1 : a.length ≠ b.length ∨ a = []
    · rw [cosine_similarity, if_pos h1]
    · rw [cosine_similarity, if_neg h1]
      simp only [if_pos h]
  · by_cases h1 : a.length ≠ b.length ∨ a = []
    · exact Or.inl (by rw [cosine_similarity, if_pos h1])
    · by_cases h2 : sqrt (sumSquares a) = 0 ∨ sqrt (sumSquares b) = 0
      · refine Or.inl ?_
        rw [cosine_similarity, if_neg h1]
        simp only [if_pos h2]
      · push_neg at h2
        refine Or.inr ⟨mul_ne_zero h2.1 h2.2, ?_⟩
        rw [cosine_similarity, if_neg h1,
          if_neg (not_or.mpr ⟨h2.1, h2.2⟩)]

/-- Witness for C5: vectors `[1, 2]` and `[3]`, with the zero square-root
model (under which every magnitude is zero and the similarity is 0). -/
theorem cosine_similarity_guards_witness :
    (([1, 2] : List ℚ).length ≠ ([3] : List ℚ).length ∧
        cosine_similarity (fun _ => 0) [1, 2] [3] = 0) ∧
      cosine_similarity (fun _ => 0) [1, 2] [1, 2] = 0 := by
  refine ⟨⟨by decide, ?_⟩, ?_⟩
  · exact (cosine_similarity_guards (fun _ => 0) [1, 2] [3]).1 (by decide)
  · exact (cosine_similarity_guards (fun _ => 0) [1, 2] [1, 2]).2.2.1
      (Or.inl rfl)

/-- One unfolding of the retry loop on a successful attempt. -/
theorem retryGo_ok {R T : Type} (call : Nat → ApiOutcome R)
    (extract : R → Except String T) (r : Nat) (s : List Nat) (v : R)
    (hr : r < MAX_RETRIES) (hc : call r = .ok v) :
    retryGo call extract r s = ⟨extract v, s, r + 1⟩ := by
  rw [retryGo, dif_pos hr, hc]

/-- One unfolding of the retry loop on a rate-limited attempt. -/
theorem retryGo_rl {R T : Type} (call : Nat → ApiOutcome R)
    (extract : R → Except String T) (r : Nat) (s : List Nat) (m : String)
    (hr : r < MAX_RETRIES) (hc : call r = .err m)
    (hm : isRateLimitMsg m = true) :
    retryGo call extract r s =
      if r + 1 < MAX_RETRIES then
        retryGo call extract (r + 1) (s ++ [RETRY_DELAY_MS * 2 ^ (r + 1)])
      else ⟨.error rateLimitFinal, s, r + 1⟩ := by
  rw [retryGo, dif_pos hr, hc]
  simp [hm]

/-- One unfolding of the retry loop on a non-rate-limit failure. -/
theorem retryGo_err {R T : Type} (call : Nat → ApiOutcome R)
    (extract : R → Except String T) (r : Nat) (s : List Nat) (m : String)
    (hr : r < MAX_RETRIES) (hc : call r = .err m)
    (hm : isRateLimitMsg m = false) :
    retryGo call extract r s = ⟨.error (apiErrorMsg r m), s, r + 1⟩ := by
  rw [retryGo, dif_pos hr, hc]
  simp [hm]

/-- C6: for every provider-call behaviour and extractor (so for both
`MistralClient::chat` and `MistralEmbedding::embed_text`, which run this
same loop): at most 3 provider attempts are issued; the backoff sleeps
performed are always a prefix of `[2000, 4000]` ms — i.e.
`RETRY_DELAY_MS * 2 ^ r` for the r-th retry, the 1000 ms base doubled per
retry — one sleep preceding each retry; an attempt failing with a
non-rate-limit error ends the call immediately (no further attempts, the
`apiErrorMsg` failure); and when all three attempts hit rate limits the
call fails with the rate-limit-exceeded error after both backoff sleeps. -/
theorem retry_policy {R T : Type} (call : Nat → ApiOutcome R)
    (extract : R → Except String T) :
    ((retryGo call extract 0 []).attempts ≤ 3 ∧
      (retryGo call extract 0 []).sleeps =
        [2000, 4000].take ((retryGo call extract 0 []).attempts - 1)) ∧
    (∀ k m, k < 3 →
      (∀ j, j < k → ∃ m', call j = .err m' ∧ isRateLimitMsg m' = true) →
      call k = .err m → isRateLimitMsg m = false →
      retryGo call extract 0 [] =
        ⟨.error (apiErrorMsg k m), [2000, 4000].take k, k + 1⟩) ∧
    ((∀ k, k < 3 → ∃ m, call k = .err m ∧ isRateLimitMsg m = true) →
      retryGo call extract 0 [] =
        ⟨.error rateLimitFinal, [2000, 4000], 3⟩) := by
  have hm3 : (3 : Nat) = MAX_RETRIES := rfl
  refine ⟨?_, ?_, ?_⟩
  · cases hc0 : call 0 with
    | ok v => rw [retryGo_ok call extract 0 [] v (by decide) hc0]; exact ⟨by norm_num, rfl⟩
    | err m =>
      cases hm0 : isRateLimitMsg m with
      | false =>
        rw [retryGo_err call extract 0 [] m (by decide) hc0 hm0]
        exact ⟨by norm_num, rfl⟩
      | true =>
        rw [retryGo_rl call extract 0 [] m (by decide) hc0 hm0, if_pos (by decide)]
        cases hc1 : call 1 with
        | ok v =>
          rw [retryGo_ok call extract 1 _ v (by decide) hc1]
          exact ⟨by norm_num, rfl⟩
        | err m1 =>
          cases hm1 : isRateLimitMsg m1 with
          | false =>
            rw [retryGo_err call extract 1 _ m1 (by decide) hc1 hm1]
            exact ⟨by norm_num, rfl⟩
          | true =>
            rw [retryGo_rl call extract 1 _ m1 (by decide) hc1 hm1,
              if_pos (by decide)]
            cases hc2 : call 2 with
            | ok v =>
              rw [retryGo_ok call extract 2 _ v (by decide) hc2]
              exact ⟨by norm_num, rfl⟩
            | err m2 =>
              cases hm2 : isRateLimitMsg m2 with
              | false =>
                rw [retryGo_err call extract 2 _ m2 (by decide) hc2 hm2]
                exact ⟨by norm_num, rfl⟩
              | true =>
                rw [retryGo_rl call extract 2 _ m2 (by decide) hc2 hm2,
                  if_neg (by decide)]
                exact ⟨by norm_num, rfl⟩
  · intro k m hk hprev hc hnm
    match k, hk with
    | 0, _ =>
      rw [retryGo_err call extract 0 [] m (by decide) hc hnm]
      rfl
    | 1, _ =>
      obtain ⟨m0, hc0, hm0⟩ := hprev 0 (by decide)
      rw [retryGo_rl call extract 0 [] m0 (by decide) hc0 hm0,
        if_pos (by decide),
        retryGo_err call extract 1 _ m (by decide) hc hnm]
      rfl
    | 2, _ =>
      obtain ⟨m0, hc0, hm0⟩ := hprev 0 (by decide)
      obtain ⟨m1, hc1, hm1⟩ := hprev 1 (by decide)
      rw [retryGo_rl call extract 0 [] m0 (by decide) hc0 hm0,
        if_pos (by decide),
        retryGo_rl call extract 1 _ m1 (by decide) hc1 hm1,
        if_pos (by decide),
        retryGo_err call extract 2 _ m (by decide) hc hnm]
      rfl
  · intro hall
    obtain ⟨m0, hc0, hm0⟩ := hall 0 (by decide)
    obtain ⟨m1, hc1, hm1⟩ := hall 1 (by decide)
    obtain ⟨m2, hc2, hm2⟩ := hall 2 (by decide)
    rw [retryGo_rl call extract 0 [] m0 (by decide) hc0 hm0,
      if_pos (by decide),
      retryGo_rl call extract 1 _ m1 (by decide) hc1 hm1,
      if_pos (by decide),
      retryGo_rl call extract 2 _ m2 (by decide) hc2 hm2,
      if_neg (by decide)]
    rfl

/-- Witness for C6: a provider that always answers `"rate limit"` drives
`MistralClient::chat`'s loop to the rate-limit-exceeded failure after
sleeps of 2000 ms and 4000 ms and exactly 3 attempts. -/
theorem retry_policy_witness :
    retryGo (fun _ => ApiOutcome.err "rate limit") chatExtract 0 [] =
      ⟨.error rateLimitFinal, [2000, 4000], 3⟩ :=
  (retry_policy (fun _ => ApiOutcome.err "rate limit") chatExtract).2.2
    (fun _ _ => ⟨"rate limit", rfl, rfl⟩)

/-- Filtering for a key right after filtering it away yields nothing. -/
theorem filter_keyEq_after_antifilter (m : Memory) (l : List Row) :
    (l.filter (fun r => ! keyEq m r)).filter (keyEq m) = [] := by
  refine List.filter_eq_nil_iff.mpr ?_
  intro a ha
  have h := (List.mem_filter.mp ha).2
  simp only [Bool.not_eq_eq_eq_not, Bool.not_true] at h
  simp [h]

/-- C7: storing twice with Memories sharing the natural key
`(chat_id, user_id, timestamp)` leaves exactly one row with that key — the
one carrying the second call's content (and embedding/metadata), whose id
is the id the second call returned, namely the storage-generated next
rowid; the first call's row is gone. -/
theorem store_memory_upsert (db : Db) (m1 m2 : Memory)
    (hc : m1.chat_id = m2.chat_id) (hu : m1.user_id = m2.user_id)
    (ht : m1.timestamp = m2.timestamp) :
    (store_memory (store_memory db m1).1 m2).1.rows.filter (keyEq m2) =
        [⟨(store_memory (store_memory db m1).1 m2).2, m2.chat_id,
          m2.user_id, m2.timestamp, m2.content,
          m2.embedding.map encodeEmbedding, m2.metadata⟩] ∧
      (store_memory (store_memory db m1).1 m2).2 =
        (store_memory db m1).1.nextId ∧
      (⟨db.nextId, m1.chat_id, m1.user_id, m1.timestamp, m1.content,
          m1.embedding.map encodeEmbedding, m1.metadata⟩ : Row) ∉
        (store_memory (store_memory db m1).1 m2).1.rows := by
  refine ⟨?_, rfl, ?_⟩
  · simp only [store_memory, List.filter_append,
      filter_keyEq_after_antifilter, List.nil_append]
    simp [List.filter, keyEq]
  · simp only [store_memory, List.mem_append]
    rintro (hmem | hmem)
    · have h := (List.mem_filter.mp hmem).2
      simp [keyEq, hc, hu, ht] at h
    · simp only [List.mem_singleton] at hmem
      have : db.nextId = db.nextId + 1 := congrArg Row.id hmem
      omega

/-- Witness for C7: two stores with the same key into an empty store. -/
theorem store_memory_upsert_witness :
    (store_memory
          (store_memory ⟨[], 1⟩
            ⟨none, "chat", "user", 7, "first", none, none⟩).1
          ⟨none, "chat", "user", 7, "second", none, none⟩).1.rows.filter
        (keyEq ⟨none, "chat", "user", 7, "second", none, none⟩) =
      [⟨2, "chat", "user", 7, "second", none, none⟩] :=
  (store_memory_upsert ⟨[], 1⟩ _ _ rfl rfl rfl).1

/-- 4-byte little-endian round-trip for one IEEE-754 bit pattern. -/
theorem f32_le_bytes_roundtrip (x : Nat) (hx : x < 2 ^ 32) :
    f32FromLeBytes (x % 256) (x / 256 % 256) (x / 256 ^ 2 % 256)
      (x / 256 ^ 3 % 256) = x := by
  simp only [f32FromLeBytes]
  omega

/-- Decoding inverts encoding on every float32 vector. -/
theorem decodeEmbedding_encodeEmbedding (v : List Nat)
    (hv : ∀ x ∈ v, x < 2 ^ 32) :
    decodeEmbedding (encodeEmbedding v) = v := by
  induction v with
  | nil => rfl
  | cons x t ih =>
    have hx := hv x (by simp)
    have ht : ∀ y ∈ t, y < 2 ^ 32 := fun y hy => hv y (by simp [hy])
    simp only [encodeEmbedding, List.flatMap_cons, f32ToLeBytes,
      List.cons_append, List.nil_append, decodeEmbedding]
    rw [f32_le_bytes_roundtrip x hx]
    exact congrArg (x :: ·) (ih ht)

/-- C8: the little-endian blob written by `store_memory` decodes back to
exactly the original bit-pattern vector, and storing a Memory carrying
embedding `v` then fetching it by the returned id yields the same Memory
with the assigned id and embedding exactly `v`. -/
theorem store_then_get_roundtrip (v : List Nat) (db : Db) (m : Memory)
    (hv : ∀ x ∈ v, x < 2 ^ 32) (hwf : DbWf db) (hemb : m.embedding = some v) :
    decodeEmbedding (encodeEmbedding v) = v ∧
      get_memory (store_memory db m).1 (store_memory db m).2 =
        some { m with id := some (store_memory db m).2 } := by
  refine ⟨decodeEmbedding_encodeEmbedding v hv, ?_⟩
  simp only [get_memory, store_memory, List.find?_append]
  have h1 : (db.rows.filter (fun r => ! keyEq m r)).find?
      (fun r => r.id == db.nextId) = none := by
    refine List.find?_eq_none.mpr ?_
    intro x hx
    have hmem := (List.mem_filter.mp hx).1
    have := hwf x hmem
    simp only [beq_iff_eq]
    omega
  rw [h1]
  simp only [Option.none_or, List.find?_cons, beq_self_eq_true]
  simp [rowToMemory, hemb, decodeEmbedding_encodeEmbedding v hv]

/-- Witness for C8: a one-float embedding (bit pattern 1065353216, i.e.
1.0f32) stored into an empty store and fetched back. -/
theorem store_then_get_roundtrip_witness :
    decodeEmbedding (encodeEmbedding [1065353216]) = [1065353216] ∧
      get_memory
          (store_memory ⟨[], 1⟩
            ⟨none, "chat", "user", 7, "note", some [1065353216], none⟩).1
          (store_memory ⟨[], 1⟩
            ⟨none, "chat", "user", 7, "note", some [1065353216], none⟩).2 =
        some ⟨some 1, "chat", "user", 7, "note", some [1065353216], none⟩ :=
  store_then_get_roundtrip [1065353216] ⟨[], 1⟩
    ⟨none, "chat", "user", 7, "note", some [1065353216], none⟩
    (by intro x hx; simp at hx; omega) (by intro r hr; simp at hr) rfl

/-- C9: `recall_memory`'s fallback chain.  When embedding the query fails,
the reply is exactly the direct recency listing; when embedding succeeds
but the similarity search errors, or succeeds with no results, the reply is
likewise the direct recency listing; and when the fallback recency list is
itself empty, recall returns the "no relevant memories" message as a
success, never an error. -/
theorem recall_memory_fallback_chain (fmtTs : Nat → String)
    (fmtScore : ℚ → String) (query : String)
    (searchRes : List Nat → Except String (List (Memory × ℚ)))
    (recentRes : Except String (List Memory)) :
    (∀ e, recall_memory fmtTs fmtScore query (.error e) searchRes
        recentRes = directRecencyReply fmtTs query recentRes) ∧
    (∀ emb e, searchRes emb = .error e →
      recall_memory fmtTs fmtScore query (.ok emb) searchRes recentRes =
        directRecencyReply fmtTs query recentRes) ∧
    (∀ emb, searchRes emb = .ok [] →
      recall_memory fmtTs fmtScore query (.ok emb) searchRes recentRes =
        directRecencyReply fmtTs query recentRes) ∧
    (recentRes = .ok [] → ∀ e,
      recall_memory fmtTs fmtScore query (.error e) searchRes recentRes =
        .ok noRelevantMemories) := by
  have hfall : ∀ (memOf : Except String (List String)),
      memOf = (match recentRes with
        | .ok recent => .ok (recent.map (recentLine fmtTs))
        | .error e => .error ("Failed to get recent memories: " ++ e)) →
      (match memOf with
        | .error e => Except.error e
        | .ok ms =>
          if ms = [] then Except.ok noRelevantMemories
          else .ok (recallHeader query ms)) =
        directRecencyReply fmtTs query recentRes := by
    intro memOf hm
    subst hm
    cases recentRes with
    | error e => simp [directRecencyReply]
    | ok recent =>
      by_cases hr : recent = []
      · simp [directRecencyReply, hr]
      · simp [directRecencyReply, hr, List.map_eq_nil_iff]
  refine ⟨?_, ?_, ?_, ?_⟩
  · intro e
    exact hfall _ rfl
  · intro emb e hs
    simp only [recall_memory, hs]
    exact hfall _ rfl
  · intro emb hs
    simp only [recall_memory, hs, ne_eq, not_true_eq_false, if_false]
    exact hfall _ rfl
  · intro hrec e
    subst hrec
    simp [recall_memory]

/-- Witness for C9: a failing search oracle and a one-memory recency
listing; recall with a successful embedding but failing search reproduces
the direct recency listing. -/
theorem recall_memory_fallback_chain_witness :
    recall_memory (fun t => toString t) (fun _ => "s") "keys"
        (.ok [3]) (fun _ => .error "search down")
        (.ok [⟨some 1, "chat", "user", 7, "note", none, none⟩]) =
      directRecencyReply (fun t => toString t) "keys"
        (.ok [⟨some 1, "chat", "user", 7, "note", none, none⟩]) :=
  (recall_memory_fallback_chain (fun t => toString t) (fun _ => "s") "keys"
      (fun _ => .error "search down")
      (.ok [⟨some 1, "chat", "user", 7, "note", none, none⟩])).2.1
    [3] "search down" rfl

end KarmaSpark
